import Mathlib

/-!
Verification of the silk tree-walking execution engine.

The engine evaluates pre-built AST nodes (`internal/models/node.go`) against a
variable-binding environment.  The repository ships two competing executor
variants in `internal/executor/executor.go`:

* variant 1 ("stack executor", `Executor` with `envStack`, environment pooling,
  a builtin-lookup cache and a concurrency semaphore), embedded below as
  `Executor1` / `exec1`;
* variant 2 ("map executor", `Executor` with a single `env` map that is swapped
  on function calls), embedded below as `Executor2` / `exec2`.

Go's `float64` literals are modelled as exact rationals (`Rat`); every claim
settled here depends only on type dispatch, zero tests and small-integer
arithmetic, not on IEEE-754 rounding.  Go's `interface{}` results are the
`Value` type (with `.null` for Go's `nil`), and Go `error` returns are the
`Err` type; a Go runtime panic (failed type assertion, index out of range) is
modelled by the distinguished constructor `Err.goPanic`, which is not a
returned error value in Go.  Recursion and loops are bounded by explicit fuel;
`Err.outOfFuel` marks exhaustion and is an artifact of the embedding, not a
behaviour of the engine.  The `trace` field of each executor records every
invocation of a native callable (builtin) together with its argument values;
it is observational instrumentation of the call `builtin(args)` and does not
influence evaluation.
-/

namespace Silk

attribute [local semireducible] Rat.add Rat.mul Rat.sub Rat.inv

/-- Runtime values: Go `interface{}` holding `float64`, `string`, `bool` or
`nil`. -/
inductive Value where
  | num (x : Rat)
  | str (s : String)
  | bool (b : Bool)
  | null
deriving DecidableEq, Repr

/-- Errors returned by the engine, one constructor per `errors.New` /
`fmt.Errorf` site, plus `goPanic` for Go runtime panics and `outOfFuel` for
fuel exhaustion of the embedding. -/
inductive Err where
  | undefinedVariable (name : String)
  | unknownOperator (op : String)
  | operandsMustBeNumbers
  | conditionMustBeBoolean
  | unknownComparisonOperator (op : String)
  | undefinedFunction (name : String)
  | arityMismatch (name : String) (expected got : Nat)
  | divisionByZero
  | unsupportedTypesForAddition
  | unknownNodeType (goType : String)
  | multipleErrors (messages : List String)
  | builtinFailure (msg : String)
  | goPanic (msg : String)
  | outOfFuel
deriving DecidableEq, Repr

/-- Decidable equality for evaluation results `(value, error)`. -/
instance instDecEqExceptErrValue : DecidableEq (Except Err Value) := fun x y =>
  match x, y with
  | .ok a, .ok b =>
      if h : a = b then .isTrue (by rw [h])
      else .isFalse (by intro hh; cases hh; exact h rfl)
  | .error a, .error b =>
      if h : a = b then .isTrue (by rw [h])
      else .isFalse (by intro hh; cases hh; exact h rfl)
  | .ok _, .error _ => .isFalse (by intro hh; cases hh)
  | .error _, .ok _ => .isFalse (by intro hh; cases hh)

/-- Renders an error to its Go message string (`err.Error()`); used when a
`ParallelBlock` formats its collected errors with `fmt.Errorf("... %v", errs)`. -/
def Err.render : Err → String
  | .undefinedVariable name => ("undefined variable: ") ++ name
  | .unknownOperator op => ("unknown operator: ") ++ op
  | .operandsMustBeNumbers => ("operands must be numbers")
  | .conditionMustBeBoolean => ("condition must evaluate to a boolean")
  | .unknownComparisonOperator op => ("unknown comparison operator: ") ++ op
  | .undefinedFunction name => ("undefined function: ") ++ name
  | .arityMismatch name expected got =>
      ("function ") ++ name ++ (" expects ") ++ toString expected ++
        (" arguments, but got ") ++ toString got
  | .divisionByZero => ("division by zero")
  | .unsupportedTypesForAddition => ("unsupported types for addition")
  | .unknownNodeType goType => ("unknown node type: ") ++ goType
  | .multipleErrors messages =>
      ("multiple errors occurred: [") ++ (String.intercalate (" ") messages) ++ ("]")
  | .builtinFailure msg => msg
  | .goPanic msg => msg
  | .outOfFuel => ("out of fuel")

/-- AST nodes, mirroring `internal/models/node.go`.  `Assignment.Variable` and
`FunctionDeclaration.Parameters` carry `*Variable` nodes in Go; only their
`Name` fields are ever read, so they are embedded as strings. -/
inductive Node where
  | program (body : List Node)
  | number (value : Rat)
  | var (name : String)
  | binaryExpression (operator : String) (left right : Node)
  | assignment (target : String) (value : Node)
  | ifStatement (condition consequent : Node) (alternate : Option Node)
  | string (value : String)
  | comparisonExpression (operator : String) (left right : Node)
  | parallelBlock (body : List Node)
  | functionCall (name : String) (args : List Node)
  | functionDeclaration (name : String) (parameters : List String) (body : List Node)
  | forLoop (initialization condition post : Node) (body : List Node)
  | whileLoop (condition : Node) (body : List Node)
  | returnStatement (value : Node)

/-- Holds for exactly the `ReturnStatement` nodes (`stmt.(*models.ReturnStatement)`
type check in `handleFunctionCall`). -/
def Node.isReturnStatement : Node → Bool
  | .returnStatement _ => true
  | _ => false

/-- Association list standing for a Go `map[string]α` (insertion replaces the
binding of an existing key). -/
def lookupA {α : Type} : List (String × α) → String → Option α
  | [], _ => none
  | (k', v') :: rest, k => if k' = k then some v' else lookupA rest k

/-- Map update: replace the first binding of the key, or append a new one. -/
def insertA {α : Type} : List (String × α) → String → α → List (String × α)
  | [], k, v => [(k, v)]
  | (k', v') :: rest, k, v =>
      if k' = k then (k, v) :: rest else (k', v') :: insertA rest k v

/-- A registered user-defined function (`models.FunctionDeclaration`). -/
structure FunctionDecl where
  name : String
  parameters : List String
  body : List Node

/-- A native callable: `func(args []interface{}) (interface{}, error)`. -/
def Builtin : Type := List Value → Except Err Value

/-- One scope of variable bindings (`executor.Environment`). -/
structure Env where
  vars : List (String × Value)
  isReusable : Bool

/-- State of the variant-1 (stack) executor.  `maxGoroutines`/`sem` only bound
concurrency and are irrelevant to the sequential schedule modelled here;
`trace` is observational instrumentation (see module docstring). -/
structure Executor1 where
  envStack : List Env          -- head of the list is the innermost (top) frame
  functions : List (String × FunctionDecl)
  builtins : List (String × Builtin)
  builtinCache : List (String × Builtin)
  envPool : List Env
  trace : List (String × List Value)

/-- Fresh variant-1 executor (`NewExecutor`): one non-reusable base frame,
empty registries, empty pool. -/
def newExecutor1 : Executor1 :=
  { envStack := [⟨[], false⟩], functions := [], builtins := [],
    builtinCache := [], envPool := [], trace := [] }

/-- Mirrors `RegisterFunction` (variant 1). -/
def registerFunction1 (s : Executor1) (name : String) (fd : FunctionDecl) : Executor1 :=
  { s with functions := insertA s.functions name fd }

/-- Mirrors `RegisterBuiltin` (variant 1): updates `builtins` only, never
`builtinCache`. -/
def registerBuiltin1 (s : Executor1) (name : String) (f : Builtin) : Executor1 :=
  { s with builtins := insertA s.builtins name f }

/-- Mirrors `pushEnv`: reuse the last pooled frame after clearing its
vars, else allocate a fresh reusable frame. -/
def pushEnv (s : Executor1) : Executor1 :=
  match s.envPool.getLast? with
  | some env =>
      { s with envPool := s.envPool.dropLast,
               envStack := { env with vars := [] } :: s.envStack }
  | none => { s with envStack := ⟨[], true⟩ :: s.envStack }

/-- Mirrors `popEnv`: drop the top frame, returning it to the pool when
reusable.  `popEnv` is only ever invoked after a matching `pushEnv`, so the
empty-stack branch is unreachable. -/
def popEnv (s : Executor1) : Executor1 :=
  match s.envStack with
  | [] => s
  | env :: rest =>
      { s with envStack := rest,
               envPool := if env.isReusable then s.envPool ++ [env] else s.envPool }

/-- Mirrors `isValidOperator`. -/
def isValidOperator (operator : String) : Bool :=
  operator == ("+") || operator == ("-") || operator == ("*") || operator == ("/")

/-- Mirrors `handleBinaryOperation`: arithmetic on two numbers with a
division-by-zero guard.  The default branch is unreachable after
`isValidOperator`. -/
def handleBinaryOperation (operator : String) (left right : Rat) : Except Err Value :=
  if operator = ("+") then .ok (.num (left + right))
  else if operator = ("-") then .ok (.num (left - right))
  else if operator = ("*") then .ok (.num (left * right))
  else if operator = ("/") then
    if right = 0 then .error .divisionByZero else .ok (.num (left / right))
  else .error (.unknownOperator operator)

/-- Mirrors `handleComparison`. -/
def handleComparison (operator : String) (left right : Rat) : Except Err Value :=
  if operator = (">") then .ok (.bool (decide (left > right)))
  else if operator = ("<") then .ok (.bool (decide (left < right)))
  else if operator = ("==") then .ok (.bool (decide (left = right)))
  else .error (.unknownComparisonOperator operator)

/-- Mirrors the executors' `add` method: numbers add, strings concatenate, and
a mixed number/string pair hits an unchecked Go type assertion, i.e. a runtime
panic.  In variant 1 this method is unreachable from `Execute` (the
`BinaryExpression` case requires two `float64`s before dispatching to
`handleBinaryOperation`); variant 2 dispatches `+` to it. -/
def add (a b : Value) : Except Err Value :=
  match a with
  | .num x =>
      match b with
      | .num y => .ok (.num (x + y))
      | _ => .error (.goPanic ("interface conversion: interface \x7b\x7d is not float64"))
  | .str x =>
      match b with
      | .str y => .ok (.str (x ++ y))
      | _ => .error (.goPanic ("interface conversion: interface \x7b\x7d is not string"))
  | _ => .error .unsupportedTypesForAddition

/-- Mirrors the executors' `subtract` method. -/
def subtract (a b : Value) : Except Err Value :=
  match a, b with
  | .num x, .num y => .ok (.num (x - y))
  | _, _ => .error .operandsMustBeNumbers

/-- Mirrors the executors' `multiply` method. -/
def multiply (a b : Value) : Except Err Value :=
  match a, b with
  | .num x, .num y => .ok (.num (x * y))
  | _, _ => .error .operandsMustBeNumbers

/-- Mirrors the executors' `divide` method. -/
def divide (a b : Value) : Except Err Value :=
  match a, b with
  | .num x, .num y =>
      if y = 0 then .error .divisionByZero else .ok (.num (x / y))
  | _, _ => .error .operandsMustBeNumbers

/-- Type of one evaluation step, used to parameterize the statement-list
helpers over the recursive evaluator at the next smaller fuel. -/
def Eval1 : Type := Executor1 → Node → Executor1 × Except Err Value

/-- Sequential statement-list execution of `Program` bodies: `result` holds
the value of the last executed statement (`var result interface{}` starts as
`nil`); the first error aborts. -/
def execSeqWith (eval : Eval1) : Executor1 → Value → List Node → Executor1 × Except Err Value
  | s, result, [] => (s, .ok result)
  | s, _, stmt :: rest =>
      match eval s stmt with
      | (s', .error e) => (s', .error e)
      | (s', .ok res) => execSeqWith eval s' res rest

/-- Loop-body execution: run each statement in order discarding its value,
propagating the first error (`_, err := e.Execute(stmt)`). -/
def runStmtsWith (eval : Eval1) : Executor1 → List Node → Executor1 × Except Err Unit
  | s, [] => (s, .ok ())
  | s, stmt :: rest =>
      match eval s stmt with
      | (s', .error e) => (s', .error e)
      | (s', .ok _) => runStmtsWith eval s' rest

/-- Left-to-right evaluation of builtin-call arguments into a value list
(`args = append(args, argVal)`), aborting on the first error. -/
def execArgsWith (eval : Eval1) : Executor1 → List Node → Executor1 × Except Err (List Value)
  | s, [] => (s, .ok [])
  | s, argNode :: rest =>
      match eval s argNode with
      | (s', .error e) => (s', .error e)
      | (s', .ok v) =>
          match execArgsWith eval s' rest with
          | (s'', .error e) => (s'', .error e)
          | (s'', .ok vs) => (s'', .ok (v :: vs))

/-- Records a builtin invocation in the trace and applies the callable. -/
def invokeBuiltin (s : Executor1) (name : String) (f : Builtin) (args : List Value) :
    Executor1 × Except Err Value :=
  ({ s with trace := s.trace ++ [(name, args)] }, f args)

/-- Variant-1 parameter binding (`handleFunctionCall`): the new frame has
already been pushed, and each argument is evaluated with that new frame
current, then bound into it.  Go indexes `n.Args[i]` for each parameter, which
panics when the argument list is shorter; the arity check makes that branch
unreachable in variant 1. -/
def bindParamsWith (eval : Eval1) : Executor1 → List String → List Node → Executor1 × Except Err Unit
  | s, [], _ => (s, .ok ())
  | s, _ :: _, [] => (s, .error (.goPanic ("runtime error: index out of range")))
  | s, param :: params, argNode :: argNodes =>
      match eval s argNode with
      | (s', .error e) => (s', .error e)
      | (s', .ok argVal) =>
          match s'.envStack with
          | [] => (s', .error (.goPanic ("runtime error: index out of range")))
          | env :: rest =>
              bindParamsWith eval
                { s' with envStack := { env with vars := insertA env.vars param argVal } :: rest }
                params argNodes

/-- Variant-1 function-body execution: statements run in order, `result` is
updated with each statement's value, and the loop breaks after a top-level
`ReturnStatement` statement. -/
def runBodyWith (eval : Eval1) : Executor1 → Value → List Node → Executor1 × Except Err Value
  | s, result, [] => (s, .ok result)
  | s, _, stmt :: rest =>
      match eval s stmt with
      | (s', .error e) => (s', .error e)
      | (s', .ok res) =>
          if stmt.isReturnStatement then (s', .ok res)
          else runBodyWith eval s' res rest

/-- Variant-1 `ParallelBlock` children under the sequential (source-order)
schedule, one admissible schedule of the bounded fan-out: each child runs and
a failing child's rendered error is appended to the collected list
(`errors = append(errors, err)`), without aborting the remaining children. -/
def runParallelWith (eval : Eval1) : Executor1 → List Node → Executor1 × List String
  | s, [] => (s, [])
  | s, child :: rest =>
      let (s', r) := eval s child
      let (s'', errs) := runParallelWith eval s' rest
      match r with
      | .ok _ => (s'', errs)
      | .error e => (s'', e.render :: errs)

/-- Variant-1 `handleFunctionCall`: builtin cache first, then the builtin
registry (caching the hit before evaluating arguments), then user-defined
functions with an arity check, a pushed frame (`pushEnv` before the binding
loop), and a deferred `popEnv` on every exit path. -/
def callFnWith (eval : Eval1) (s : Executor1) (name : String) (argNodes : List Node) :
    Executor1 × Except Err Value :=
  match lookupA s.builtinCache name with
  | some cachedBuiltin =>
      match execArgsWith eval s argNodes with
      | (s', .error e) => (s', .error e)
      | (s', .ok args) => invokeBuiltin s' name cachedBuiltin args
  | none =>
    match lookupA s.builtins name with
    | some builtin =>
        let s0 := { s with builtinCache := insertA s.builtinCache name builtin }
        match execArgsWith eval s0 argNodes with
        | (s', .error e) => (s', .error e)
        | (s', .ok args) => invokeBuiltin s' name builtin args
    | none =>
      match lookupA s.functions name with
      | none => (s, .error (.undefinedFunction name))
      | some function =>
        if argNodes.length ≠ function.parameters.length then
          (s, .error (.arityMismatch name function.parameters.length argNodes.length))
        else
          match bindParamsWith eval (pushEnv s) function.parameters argNodes with
          | (s2, .error e) => (popEnv s2, .error e)
          | (s2, .ok _) =>
              match runBodyWith eval s2 .null function.body with
              | (s3, r) => (popEnv s3, r)

/-- Variant-1 `handleForLoop` iteration: condition (must be boolean), body,
post, repeated until the condition is false or an error occurs; each round
consumes one unit of fuel. -/
def forIterWith (eval : Eval1) : Nat → Executor1 → Node → Node → List Node → Executor1 × Except Err Value
  | 0, s, _, _, _ => (s, .error .outOfFuel)
  | k + 1, s, cond, post, body =>
      match eval s cond with
      | (s1, .error e) => (s1, .error e)
      | (s1, .ok condVal) =>
          match condVal with
          | .bool true =>
              match runStmtsWith eval s1 body with
              | (s2, .error e) => (s2, .error e)
              | (s2, .ok _) =>
                  match eval s2 post with
                  | (s3, .error e) => (s3, .error e)
                  | (s3, .ok _) => forIterWith eval k s3 cond post body
          | .bool false => (s1, .ok .null)
          | _ => (s1, .error .conditionMustBeBoolean)

/-- Variant-1 `handleWhileLoop` iteration. -/
def whileIterWith (eval : Eval1) : Nat → Executor1 → Node → List Node → Executor1 × Except Err Value
  | 0, s, _, _ => (s, .error .outOfFuel)
  | k + 1, s, cond, body =>
      match eval s cond with
      | (s1, .error e) => (s1, .error e)
      | (s1, .ok condVal) =>
          match condVal with
          | .bool true =>
              match runStmtsWith eval s1 body with
              | (s2, .error e) => (s2, .error e)
              | (s2, .ok _) => whileIterWith eval k s2 cond body
          | .bool false => (s1, .ok .null)
          | _ => (s1, .error .conditionMustBeBoolean)

/-- One dispatch step of variant-1 `Execute`: `eval` evaluates child nodes and
`fuel` bounds the number of loop iterations.  The type switch has no
`*models.ReturnStatement` case, so a `ReturnStatement` falls through to the
default branch and yields the "unknown node type" error. -/
def execStep (eval : Eval1) (fuel : Nat) (s : Executor1) (node : Node) :
    Executor1 × Except Err Value :=
    match node with
    | .program body => execSeqWith eval s .null body
    | .number value => (s, .ok (.num value))
    | .var name =>
        match s.envStack with
        | [] => (s, .error (.goPanic ("runtime error: index out of range")))
        | env :: _ =>
            match lookupA env.vars name with
            | some val => (s, .ok val)
            | none => (s, .error (.undefinedVariable name))
    | .assignment target value =>
        match eval s value with
        | (s', .error e) => (s', .error e)
        | (s', .ok val) =>
            match s'.envStack with
            | [] => (s', .error (.goPanic ("runtime error: index out of range")))
            | env :: rest =>
                ({ s' with envStack := { env with vars := insertA env.vars target val } :: rest },
                 .ok val)
    | .binaryExpression operator left right =>
        if ¬ isValidOperator operator then (s, .error (.unknownOperator operator))
        else
          match eval s left with
          | (s1, .error e) => (s1, .error e)
          | (s1, .ok leftVal) =>
              match eval s1 right with
              | (s2, .error e) => (s2, .error e)
              | (s2, .ok rightVal) =>
                  match leftVal, rightVal with
                  | .num leftNum, .num rightNum =>
                      (s2, handleBinaryOperation operator leftNum rightNum)
                  | _, _ => (s2, .error .operandsMustBeNumbers)
    | .ifStatement condition consequent alternate =>
        match eval s condition with
        | (s1, .error e) => (s1, .error e)
        | (s1, .ok condVal) =>
            match condVal with
            | .bool true => eval s1 consequent
            | .bool false =>
                match alternate with
                | some alt => eval s1 alt
                | none => (s1, .ok .null)
            | _ => (s1, .error .conditionMustBeBoolean)
    | .string value => (s, .ok (.str value))
    | .comparisonExpression operator left right =>
        match eval s left with
        | (s1, .error e) => (s1, .error e)
        | (s1, .ok leftVal) =>
            match eval s1 right with
            | (s2, .error e) => (s2, .error e)
            | (s2, .ok rightVal) =>
                match leftVal, rightVal with
                | .num leftNum, .num rightNum =>
                    (s2, handleComparison operator leftNum rightNum)
                | _, _ => (s2, .error .operandsMustBeNumbers)
    | .parallelBlock body =>
        let (s1, errs) := runParallelWith eval s body
        if errs.isEmpty then (s1, .ok .null)
        else (s1, .error (.multipleErrors errs))
    | .functionDeclaration name parameters body =>
        ({ s with functions := insertA s.functions name ⟨name, parameters, body⟩ }, .ok .null)
    | .functionCall name args => callFnWith eval s name args
    | .forLoop initialization condition post body =>
        match eval s initialization with
        | (s1, .error e) => (s1, .error e)
        | (s1, .ok _) => forIterWith eval fuel s1 condition post body
    | .whileLoop condition body => whileIterWith eval fuel s condition body
    | .returnStatement _ =>
        (s, .error (.unknownNodeType ("*models.ReturnStatement")))

/-- Variant-1 `Execute`, bounded by fuel: each step evaluates child nodes at
one unit less fuel. -/
def exec1 : Nat → Executor1 → Node → Executor1 × Except Err Value
  | 0 => fun s _ => (s, .error .outOfFuel)
  | fuel + 1 => execStep (exec1 fuel) fuel

/-- State of the variant-2 (map) executor: a single environment map that is
swapped out for function calls.  `trace` is observational instrumentation as
in `Executor1`. -/
structure Executor2 where
  env : List (String × Value)
  functions : List (String × FunctionDecl)
  builtins : List (String × Builtin)
  trace : List (String × List Value)

/-- Fresh variant-2 executor (`NewExecutor`, second variant). -/
def newExecutor2 : Executor2 :=
  { env := [], functions := [], builtins := [], trace := [] }

/-- Mirrors `RegisterFunction` (variant 2). -/
def registerFunction2 (s : Executor2) (name : String) (fd : FunctionDecl) : Executor2 :=
  { s with functions := insertA s.functions name fd }

/-- Mirrors `RegisterBuiltin` (variant 2). -/
def registerBuiltin2 (s : Executor2) (name : String) (f : Builtin) : Executor2 :=
  { s with builtins := insertA s.builtins name f }

/-- Type of one variant-2 evaluation step. -/
def Eval2 : Type := Executor2 → Node → Executor2 × Except Err Value

/-- Variant-2 `Program`/function-body statement sequence: `result` tracks the
last executed statement's value; the first error aborts.  Unlike variant 1,
the function-body loop has no `ReturnStatement` break. -/
def execSeqWith2 (eval : Eval2) : Executor2 → Value → List Node → Executor2 × Except Err Value
  | s, result, [] => (s, .ok result)
  | s, _, stmt :: rest =>
      match eval s stmt with
      | (s', .error e) => (s', .error e)
      | (s', .ok res) => execSeqWith2 eval s' res rest

/-- Variant-2 loop-body execution, discarding statement values. -/
def runStmtsWith2 (eval : Eval2) : Executor2 → List Node → Executor2 × Except Err Unit
  | s, [] => (s, .ok ())
  | s, stmt :: rest =>
      match eval s stmt with
      | (s', .error e) => (s', .error e)
      | (s', .ok _) => runStmtsWith2 eval s' rest

/-- Variant-2 builtin-argument evaluation. -/
def execArgsWith2 (eval : Eval2) : Executor2 → List Node → Executor2 × Except Err (List Value)
  | s, [] => (s, .ok [])
  | s, argNode :: rest =>
      match eval s argNode with
      | (s', .error e) => (s', .error e)
      | (s', .ok v) =>
          match execArgsWith2 eval s' rest with
          | (s'', .error e) => (s'', .error e)
          | (s'', .ok vs) => (s'', .ok (v :: vs))

/-- Variant-2 parameter binding: each argument is evaluated while `e.env` is
still the caller's map, and the result is bound into the separate `newEnv`
map.  There is no arity check: Go indexes `n.Args[i]`, panicking when the
argument list is shorter than the parameter list, and extra arguments are
silently ignored. -/
def bindParamsWith2 (eval : Eval2) : Executor2 → List String → List Node →
    List (String × Value) → Executor2 × Except Err (List (String × Value))
  | s, [], _, newEnv => (s, .ok newEnv)
  | s, _ :: _, [], _ => (s, .error (.goPanic ("runtime error: index out of range")))
  | s, param :: params, argNode :: argNodes, newEnv =>
      match eval s argNode with
      | (s', .error e) => (s', .error e)
      | (s', .ok argVal) =>
          bindParamsWith2 eval s' params argNodes (insertA newEnv param argVal)

/-- Variant-2 `ParallelBlock` children under the sequential (source-order)
schedule: failing children's errors are collected on the channel in completion
order, without aborting siblings. -/
def runParallelWith2 (eval : Eval2) : Executor2 → List Node → Executor2 × List Err
  | s, [] => (s, [])
  | s, child :: rest =>
      let (s', r) := eval s child
      let (s'', errs) := runParallelWith2 eval s' rest
      match r with
      | .ok _ => (s'', errs)
      | .error e => (s'', e :: errs)

/-- Variant-2 `FunctionCall` case: builtin registry (no cache), then
user-defined functions; arguments are evaluated in the caller's environment
and bound into a fresh map, which is installed for the body and restored on
every exit path. -/
def callFnWith2 (eval : Eval2) (s : Executor2) (name : String) (argNodes : List Node) :
    Executor2 × Except Err Value :=
  match lookupA s.builtins name with
  | some builtin =>
      match execArgsWith2 eval s argNodes with
      | (s', .error e) => (s', .error e)
      | (s', .ok args) =>
          ({ s' with trace := s'.trace ++ [(name, args)] }, builtin args)
  | none =>
    match lookupA s.functions name with
    | none => (s, .error (.undefinedFunction name))
    | some function =>
      match bindParamsWith2 eval s function.parameters argNodes [] with
      | (s', .error e) => (s', .error e)
      | (s', .ok newEnv) =>
          let originalEnv := s'.env
          match execSeqWith2 eval { s' with env := newEnv } .null function.body with
          | (s'', .error e) => ({ s'' with env := originalEnv }, .error e)
          | (s'', .ok result) => ({ s'' with env := originalEnv }, .ok result)

/-- Variant-2 `ForLoop` iteration. -/
def forIterWith2 (eval : Eval2) : Nat → Executor2 → Node → Node → List Node → Executor2 × Except Err Value
  | 0, s, _, _, _ => (s, .error .outOfFuel)
  | k + 1, s, cond, post, body =>
      match eval s cond with
      | (s1, .error e) => (s1, .error e)
      | (s1, .ok condVal) =>
          match condVal with
          | .bool true =>
              match runStmtsWith2 eval s1 body with
              | (s2, .error e) => (s2, .error e)
              | (s2, .ok _) =>
                  match eval s2 post with
                  | (s3, .error e) => (s3, .error e)
                  | (s3, .ok _) => forIterWith2 eval k s3 cond post body
          | .bool false => (s1, .ok .null)
          | _ => (s1, .error .conditionMustBeBoolean)

/-- Variant-2 `WhileLoop` iteration. -/
def whileIterWith2 (eval : Eval2) : Nat → Executor2 → Node → List Node → Executor2 × Except Err Value
  | 0, s, _, _ => (s, .error .outOfFuel)
  | k + 1, s, cond, body =>
      match eval s cond with
      | (s1, .error e) => (s1, .error e)
      | (s1, .ok condVal) =>
          match condVal with
          | .bool true =>
              match runStmtsWith2 eval s1 body with
              | (s2, .error e) => (s2, .error e)
              | (s2, .ok _) => whileIterWith2 eval k s2 cond body
          | .bool false => (s1, .ok .null)
          | _ => (s1, .error .conditionMustBeBoolean)

/-- Variant-2 `Execute`, bounded by fuel.  The `BinaryExpression` case has no
operator pre-validation and no numeric pre-check: it dispatches `+ - * /`
directly to the `add`/`subtract`/`multiply`/`divide` methods.  As in variant
1, the type switch has no `*models.ReturnStatement` case, and a
`ParallelBlock` with failures returns only the first collected error. -/
def execStep2 (eval : Eval2) (fuel : Nat) (s : Executor2) (node : Node) :
    Executor2 × Except Err Value :=
    match node with
    | .program body => execSeqWith2 eval s .null body
    | .number value => (s, .ok (.num value))
    | .var name =>
        match lookupA s.env name with
        | some val => (s, .ok val)
        | none => (s, .error (.undefinedVariable name))
    | .assignment target value =>
        match eval s value with
        | (s', .error e) => (s', .error e)
        | (s', .ok val) =>
            ({ s' with env := insertA s'.env target val }, .ok val)
    | .binaryExpression operator left right =>
        match eval s left with
        | (s1, .error e) => (s1, .error e)
        | (s1, .ok leftVal) =>
            match eval s1 right with
            | (s2, .error e) => (s2, .error e)
            | (s2, .ok rightVal) =>
                if operator = ("+") then (s2, add leftVal rightVal)
                else if operator = ("-") then (s2, subtract leftVal rightVal)
                else if operator = ("*") then (s2, multiply leftVal rightVal)
                else if operator = ("/") then (s2, divide leftVal rightVal)
                else (s2, .error (.unknownOperator operator))
    | .ifStatement condition consequent alternate =>
        match eval s condition with
        | (s1, .error e) => (s1, .error e)
        | (s1, .ok condVal) =>
            match condVal with
            | .bool true => eval s1 consequent
            | .bool false =>
                match alternate with
                | some alt => eval s1 alt
                | none => (s1, .ok .null)
            | _ => (s1, .error .conditionMustBeBoolean)
    | .string value => (s, .ok (.str value))
    | .comparisonExpression operator left right =>
        match eval s left with
        | (s1, .error e) => (s1, .error e)
        | (s1, .ok leftVal) =>
            match eval s1 right with
            | (s2, .error e) => (s2, .error e)
            | (s2, .ok rightVal) =>
                match leftVal, rightVal with
                | .num leftNum, .num rightNum =>
                    (s2, handleComparison operator leftNum rightNum)
                | _, _ => (s2, .error .operandsMustBeNumbers)
    | .parallelBlock body =>
        let (s1, errs) := runParallelWith2 eval s body
        match errs with
        | [] => (s1, .ok .null)
        | e :: _ => (s1, .error e)
    | .functionDeclaration name parameters body =>
        ({ s with functions := insertA s.functions name ⟨name, parameters, body⟩ }, .ok .null)
    | .functionCall name args => callFnWith2 eval s name args
    | .forLoop initialization condition post body =>
        match eval s initialization with
        | (s1, .error e) => (s1, .error e)
        | (s1, .ok _) => forIterWith2 eval fuel s1 condition post body
    | .whileLoop condition body => whileIterWith2 eval fuel s condition body
    | .returnStatement _ =>
        (s, .error (.unknownNodeType ("*models.ReturnStatement")))

/-- Variant-2 `Execute`, bounded by fuel. -/
def exec2 : Nat → Executor2 → Node → Executor2 × Except Err Value
  | 0 => fun s _ => (s, .error .outOfFuel)
  | fuel + 1 => execStep2 (exec2 fuel) fuel

/-! ### General lemmas about the embedding -/

/-- Unfolding lemma for one fuel level of the variant-1 evaluator. -/
theorem exec1_succ (fuel : Nat) : exec1 (fuel + 1) = execStep (exec1 fuel) fuel := rfl

/-- Unfolding lemma for one fuel level of the variant-2 evaluator. -/
theorem exec2_succ (fuel : Nat) : exec2 (fuel + 1) = execStep2 (exec2 fuel) fuel := rfl

/-- Looking a key up right after writing it yields the written value
(Go map-write semantics of `insertA`). -/
theorem lookupA_insertA {α : Type} (m : List (String × α)) (k : String) (v : α) :
    lookupA (insertA m k v) k = some v := by
  induction m with
  | nil => simp [insertA, lookupA]
  | cons p rest ih =>
      by_cases h : p.1 = k
      · simp [insertA, lookupA, h]
      · simp [insertA, lookupA, h, ih]

/-- Pushing a frame puts some frame on top of the existing stack. -/
theorem pushEnv_envStack (s : Executor1) :
    ∃ f, (pushEnv s).envStack = f :: s.envStack := by
  unfold pushEnv
  cases s.envPool.getLast? <;> simp

/-- Popping restores the stack below the top frame. -/
theorem popEnv_envStack (s : Executor1) (f : Env) (t : List Env)
    (h : s.envStack = f :: t) : (popEnv s).envStack = t := by
  unfold popEnv
  rw [h]

/-- Frame-tail preservation: evaluating any node may touch the innermost
frame, but leaves every frame below it untouched (the key structural fact
behind scope isolation). -/
def FramesTailInv (eval : Eval1) : Prop :=
  ∀ s n c rest, s.envStack = c :: rest → ∃ c', (eval s n).1.envStack = c' :: rest

theorem execSeqWith_frames {eval : Eval1} (h : FramesTailInv eval) :
    ∀ (l : List Node) (s : Executor1) (r : Value) (c : Env) (rest : List Env),
      s.envStack = c :: rest → ∃ c', (execSeqWith eval s r l).1.envStack = c' :: rest := by
  intro l
  induction l with
  | nil => intro s r c rest hs; exact ⟨c, hs⟩
  | cons n ns ih =>
      intro s r c rest hs
      have hinv := h s n c rest hs
      rcases hev : eval s n with ⟨s', res⟩
      rw [hev] at hinv
      simp only [execSeqWith, hev]
      cases res with
      | error e => exact hinv
      | ok v =>
          obtain ⟨c', hc'⟩ := hinv
          exact ih s' v c' rest hc'

theorem runStmtsWith_frames {eval : Eval1} (h : FramesTailInv eval) :
    ∀ (l : List Node) (s : Executor1) (c : Env) (rest : List Env),
      s.envStack = c :: rest → ∃ c', (runStmtsWith eval s l).1.envStack = c' :: rest := by
  intro l
  induction l with
  | nil => intro s c rest hs; exact ⟨c, hs⟩
  | cons n ns ih =>
      intro s c rest hs
      have hinv := h s n c rest hs
      rcases hev : eval s n with ⟨s', res⟩
      rw [hev] at hinv
      simp only [runStmtsWith, hev]
      cases res with
      | error e => exact hinv
      | ok v =>
          obtain ⟨c', hc'⟩ := hinv
          exact ih s' c' rest hc'

theorem execArgsWith_frames {eval : Eval1} (h : FramesTailInv eval) :
    ∀ (l : List Node) (s : Executor1) (c : Env) (rest : List Env),
      s.envStack = c :: rest → ∃ c', (execArgsWith eval s l).1.envStack = c' :: rest := by
  intro l
  induction l with
  | nil => intro s c rest hs; exact ⟨c, hs⟩
  | cons n ns ih =>
      intro s c rest hs
      have hinv := h s n c rest hs
      simp only [execArgsWith]
      split
      · rename_i s' e hev
        rw [hev] at hinv
        exact hinv
      · rename_i s' v hev
        rw [hev] at hinv
        obtain ⟨c', hc'⟩ := hinv
        have htail := ih s' c' rest hc'
        split
        · rename_i s'' e hrest
          rw [hrest] at htail
          exact htail
        · rename_i s'' vs hrest
          rw [hrest] at htail
          exact htail

theorem bindParamsWith_frames {eval : Eval1} (h : FramesTailInv eval) :
    ∀ (ps : List String) (l : List Node) (s : Executor1) (c : Env) (rest : List Env),
      s.envStack = c :: rest → ∃ c', (bindParamsWith eval s ps l).1.envStack = c' :: rest := by
  intro ps
  induction ps with
  | nil => intro l s c rest hs; exact ⟨c, hs⟩
  | cons p ps ih =>
      intro l s c rest hs
      cases l with
      | nil => exact ⟨c, hs⟩
      | cons a as =>
          have hinv := h s a c rest hs
          simp only [bindParamsWith]
          split
          · rename_i s' e hev
            rw [hev] at hinv
            exact hinv
          · rename_i s' v hev
            rw [hev] at hinv
            obtain ⟨c', hc'⟩ := hinv
            have hc'' : s'.envStack = c' :: rest := hc'
            split
            · rename_i hnil
              rw [hnil] at hc''
              exact absurd hc'' (by simp)
            · rename_i env rest' hcons
              rw [hcons] at hc''
              injection hc'' with h1 h2
              subst h2
              exact ih as _ _ _ rfl

theorem runBodyWith_frames {eval : Eval1} (h : FramesTailInv eval) :
    ∀ (l : List Node) (s : Executor1) (r : Value) (c : Env) (rest : List Env),
      s.envStack = c :: rest → ∃ c', (runBodyWith eval s r l).1.envStack = c' :: rest := by
  intro l
  induction l with
  | nil => intro s r c rest hs; exact ⟨c, hs⟩
  | cons n ns ih =>
      intro s r c rest hs
      have hinv := h s n c rest hs
      rcases hev : eval s n with ⟨s', res⟩
      rw [hev] at hinv
      simp only [runBodyWith, hev]
      cases res with
      | error e => exact hinv
      | ok v =>
          obtain ⟨c', hc'⟩ := hinv
          cases hr : n.isReturnStatement with
          | true => simpa [hr] using ⟨c', hc'⟩
          | false =>
              simp only [hr, if_neg Bool.false_ne_true]
              exact ih s' v c' rest hc'

theorem runParallelWith_frames {eval : Eval1} (h : FramesTailInv eval) :
    ∀ (l : List Node) (s : Executor1) (c : Env) (rest : List Env),
      s.envStack = c :: rest → ∃ c', (runParallelWith eval s l).1.envStack = c' :: rest := by
  intro l
  induction l with
  | nil => intro s c rest hs; exact ⟨c, hs⟩
  | cons n ns ih =>
      intro s c rest hs
      have hinv := h s n c rest hs
      rcases hev : eval s n with ⟨s', res⟩
      rw [hev] at hinv
      obtain ⟨c', hc'⟩ := hinv
      have htail := ih s' c' rest hc'
      rcases hrest : runParallelWith eval s' ns with ⟨s'', errs⟩
      rw [hrest] at htail
      simp only [runParallelWith, hev, hrest]
      cases res with
      | error e => exact htail
      | ok v => exact htail

theorem callFnWith_frames {eval : Eval1} (h : FramesTailInv eval)
    (s : Executor1) (name : String) (args : List Node) (c : Env) (rest : List Env)
    (hs : s.envStack = c :: rest) :
    ∃ c', (callFnWith eval s name args).1.envStack = c' :: rest := by
  unfold callFnWith
  split
  · rename_i cached hcache
    have hargs := execArgsWith_frames h args s c rest hs
    split
    · rename_i s' e hev
      rw [hev] at hargs
      exact hargs
    · rename_i s' vs hev
      rw [hev] at hargs
      simpa [invokeBuiltin] using hargs
  · rename_i hcache
    split
    · rename_i builtin hbuiltin
      have hargs := execArgsWith_frames h args
        { s with builtinCache := insertA s.builtinCache name builtin } c rest hs
      dsimp only
      split
      · rename_i s' e hev
        rw [hev] at hargs
        exact hargs
      · rename_i s' vs hev
        rw [hev] at hargs
        simpa [invokeBuiltin] using hargs
    · rename_i hbuiltin
      split
      · rename_i hfn
        exact ⟨c, hs⟩
      · rename_i fd hfn
        split
        · exact ⟨c, hs⟩
        · rename_i hlen
          obtain ⟨f, hf⟩ := pushEnv_envStack s
          rw [hs] at hf
          have hbind := bindParamsWith_frames h fd.parameters args (pushEnv s) f (c :: rest) hf
          split
          · rename_i s2 e hbv
            rw [hbv] at hbind
            obtain ⟨c2, hc2⟩ := hbind
            exact ⟨c, by rw [popEnv_envStack s2 c2 (c :: rest) hc2]⟩
          · rename_i s2 v hbv
            rw [hbv] at hbind
            obtain ⟨c2, hc2⟩ := hbind
            have hbody := runBodyWith_frames h fd.body s2 .null c2 (c :: rest) hc2
            rcases hrb : runBodyWith eval s2 .null fd.body with ⟨s3, res3⟩
            rw [hrb] at hbody
            obtain ⟨c3, hc3⟩ := hbody
            exact ⟨c, by dsimp only; rw [popEnv_envStack s3 c3 (c :: rest) hc3]⟩

/-- The frame-tail invariant holds for one dispatch step whenever it holds for
the child evaluator. -/
theorem execStep_frames {eval : Eval1} (h : FramesTailInv eval) (fuel : Nat) :
    FramesTailInv (execStep eval fuel) := by
  intro s n c rest hs
  cases n with
  | program body => exact execSeqWith_frames h body s .null c rest hs
  | number v => exact ⟨c, hs⟩
  | var name =>
      show ∃ c', (execStep eval fuel s (.var name)).1.envStack = c' :: rest
      simp only [execStep]
      split
      · rename_i heq
        rw [hs] at heq
        simp at heq
      · rename_i env tail heq
        split
        · exact ⟨c, hs⟩
        · exact ⟨c, hs⟩
  | assignment target value =>
      show ∃ c', (execStep eval fuel s (.assignment target value)).1.envStack = c' :: rest
      simp only [execStep]
      have hinv := h s value c rest hs
      split
      · rename_i s' e hev
        rw [hev] at hinv
        exact hinv
      · rename_i s' v hev
        rw [hev] at hinv
        obtain ⟨c', hc'⟩ := hinv
        have hc'' : s'.envStack = c' :: rest := hc'
        split
        · rename_i hnil
          rw [hnil] at hc''
          exact absurd hc'' (by simp)
        · rename_i env rest' hcons
          rw [hcons] at hc''
          injection hc'' with h1 h2
          subst h2
          exact ⟨_, rfl⟩
  | binaryExpression op left right =>
      show ∃ c', (execStep eval fuel s (.binaryExpression op left right)).1.envStack = c' :: rest
      simp only [execStep]
      split
      · exact ⟨c, hs⟩
      · have hinv := h s left c rest hs
        split
        · rename_i s1 e hev
          rw [hev] at hinv
          exact hinv
        · rename_i s1 lv hev
          rw [hev] at hinv
          obtain ⟨c1, hc1⟩ := hinv
          have hinv2 := h s1 right c1 rest hc1
          split
          · rename_i s2 e hev2
            rw [hev2] at hinv2
            exact hinv2
          · rename_i s2 rv hev2
            rw [hev2] at hinv2
            obtain ⟨c2, hc2⟩ := hinv2
            split
            · exact ⟨c2, hc2⟩
            · exact ⟨c2, hc2⟩
  | ifStatement cond cons alt =>
      show ∃ c', (execStep eval fuel s (.ifStatement cond cons alt)).1.envStack = c' :: rest
      simp only [execStep]
      have hinv := h s cond c rest hs
      split
      · rename_i s1 e hev
        rw [hev] at hinv
        exact hinv
      · rename_i s1 v hev
        rw [hev] at hinv
        obtain ⟨c1, hc1⟩ := hinv
        split
        · exact h s1 cons c1 rest hc1
        · cases alt with
          | some a => exact h s1 a c1 rest hc1
          | none => exact ⟨c1, hc1⟩
        · exact ⟨c1, hc1⟩
  | string v => exact ⟨c, hs⟩
  | comparisonExpression op left right =>
      show ∃ c', (execStep eval fuel s (.comparisonExpression op left right)).1.envStack = c' :: rest
      simp only [execStep]
      have hinv := h s left c rest hs
      split
      · rename_i s1 e hev
        rw [hev] at hinv
        exact hinv
      · rename_i s1 lv hev
        rw [hev] at hinv
        obtain ⟨c1, hc1⟩ := hinv
        have hinv2 := h s1 right c1 rest hc1
        split
        · rename_i s2 e hev2
          rw [hev2] at hinv2
          exact hinv2
        · rename_i s2 rv hev2
          rw [hev2] at hinv2
          obtain ⟨c2, hc2⟩ := hinv2
          split
          · exact ⟨c2, hc2⟩
          · exact ⟨c2, hc2⟩
  | parallelBlock body =>
      show ∃ c', (execStep eval fuel s (.parallelBlock body)).1.envStack = c' :: rest
      simp only [execStep]
      have hinv := runParallelWith_frames h body s c rest hs
      rcases hrun : runParallelWith eval s body with ⟨s1, errs⟩
      rw [hrun] at hinv
      split <;> exact hinv
  | functionCall name args => exact callFnWith_frames h s name args c rest hs
  | functionDeclaration name ps body => exact ⟨c, hs⟩
  | forLoop init cond post body =>
      show ∃ c', (execStep eval fuel s (.forLoop init cond post body)).1.envStack = c' :: rest
      simp only [execStep]
      have hinv := h s init c rest hs
      split
      · rename_i s1 e hev
        rw [hev] at hinv
        exact hinv
      · rename_i s1 v hev
        rw [hev] at hinv
        obtain ⟨c1, hc1⟩ := hinv
        have hc1' : s1.envStack = c1 :: rest := hc1
        clear hev hc1
        induction fuel generalizing s1 c1 with
        | zero => exact ⟨c1, hc1'⟩
        | succ k ih =>
            simp only [forIterWith]
            have hc := h s1 cond c1 rest hc1'
            split
            · rename_i s2 e hev2
              rw [hev2] at hc
              exact hc
            · rename_i s2 cv hev2
              rw [hev2] at hc
              obtain ⟨c2, hc2⟩ := hc
              have hc2' : s2.envStack = c2 :: rest := hc2
              split
              · have hb := runStmtsWith_frames h body s2 c2 rest hc2'
                split
                · rename_i s3 e hev3
                  rw [hev3] at hb
                  exact hb
                · rename_i s3 u hev3
                  rw [hev3] at hb
                  obtain ⟨c3, hc3⟩ := hb
                  have hp := h s3 post c3 rest hc3
                  split
                  · rename_i s4 e hev4
                    rw [hev4] at hp
                    exact hp
                  · rename_i s4 pv hev4
                    rw [hev4] at hp
                    obtain ⟨c4, hc4⟩ := hp
                    exact ih s4 c4 hc4
              · exact ⟨c2, hc2'⟩
              · exact ⟨c2, hc2'⟩
  | whileLoop cond body =>
      show ∃ c', (execStep eval fuel s (.whileLoop cond body)).1.envStack = c' :: rest
      simp only [execStep]
      induction fuel generalizing s c with
      | zero => exact ⟨c, hs⟩
      | succ k ih =>
          simp only [whileIterWith]
          have hc := h s cond c rest hs
          split
          · rename_i s1 e hev
            rw [hev] at hc
            exact hc
          · rename_i s1 cv hev
            rw [hev] at hc
            obtain ⟨c1, hc1⟩ := hc
            have hc1' : s1.envStack = c1 :: rest := hc1
            split
            · have hb := runStmtsWith_frames h body s1 c1 rest hc1'
              split
              · rename_i s2 e hev2
                rw [hev2] at hb
                exact hb
              · rename_i s2 u hev2
                rw [hev2] at hb
                obtain ⟨c2, hc2⟩ := hb
                exact ih s2 c2 hc2
            · exact ⟨c1, hc1'⟩
            · exact ⟨c1, hc1'⟩
  | returnStatement v => exact ⟨c, hs⟩

/-- The frame-tail invariant holds for the variant-1 evaluator at every fuel:
evaluating any node leaves every frame below the innermost one untouched. -/
theorem exec1_frames : ∀ fuel, FramesTailInv (exec1 fuel) := by
  intro fuel
  induction fuel with
  | zero => intro s n c rest hs; exact ⟨c, hs⟩
  | succ fuel ih => exact execStep_frames ih fuel

/-- A user-defined function call restores the environment stack exactly,
whether the call succeeds or fails: the pushed frame is discarded and the
caller's frames are untouched. -/
theorem exec1_call_envStack (fuel : Nat) (s : Executor1) (name : String)
    (args : List Node) (fd : FunctionDecl)
    (h1 : lookupA s.builtinCache name = none)
    (h2 : lookupA s.builtins name = none)
    (h3 : lookupA s.functions name = some fd) :
    (exec1 fuel s (.functionCall name args)).1.envStack = s.envStack := by
  cases fuel with
  | zero => rfl
  | succ fuel =>
      show (callFnWith (exec1 fuel) s name args).1.envStack = s.envStack
      unfold callFnWith
      rw [h1, h2, h3]
      dsimp only
      split
      · rfl
      · rename_i hlen
        obtain ⟨f, hf⟩ := pushEnv_envStack s
        have hbind := bindParamsWith_frames (exec1_frames fuel) fd.parameters args
          (pushEnv s) f s.envStack hf
        split
        · rename_i s2 e hbv
          rw [hbv] at hbind
          obtain ⟨c2, hc2⟩ := hbind
          exact popEnv_envStack s2 c2 s.envStack hc2
        · rename_i s2 v hbv
          rw [hbv] at hbind
          obtain ⟨c2, hc2⟩ := hbind
          have hbody := runBodyWith_frames (exec1_frames fuel) fd.body s2 .null c2 s.envStack hc2
          rcases hrb : runBodyWith (exec1 fuel) s2 .null fd.body with ⟨s3, res3⟩
          rw [hrb] at hbody
          obtain ⟨c3, hc3⟩ := hbody
          dsimp only
          exact popEnv_envStack s3 c3 s.envStack hc3

/-! ### C8 -/

/-- C8.  Variable lookup resolves against the innermost active frame only:
a `Variable` whose name is absent from the current frame fails with the
undefined-variable error no matter what the outer frames bind; and a
user-defined function call leaves the caller's environment stack exactly as
it was — the call frame is discarded on exit whether the call succeeded or
failed, so nothing bound inside it remains visible. -/
theorem variable_lookup_innermost_only :
    (∀ (fuel : Nat) (s : Executor1) (name : String) (c : Env) (rest : List Env),
       s.envStack = c :: rest → lookupA c.vars name = none →
       exec1 (fuel + 1) s (.var name) = (s, .error (.undefinedVariable name))) ∧
    (∀ (fuel : Nat) (s : Executor1) (name : String) (args : List Node) (fd : FunctionDecl),
       lookupA s.builtinCache name = none →
       lookupA s.builtins name = none →
       lookupA s.functions name = some fd →
       (exec1 fuel s (.functionCall name args)).1.envStack = s.envStack) := by
  constructor
  · intro fuel s name c rest hs hnone
    show execStep (exec1 fuel) fuel s (.var name) = (s, .error (.undefinedVariable name))
    simp only [execStep, hs, hnone]
  · exact fun fuel s name args fd h1 h2 h3 => exec1_call_envStack fuel s name args fd h1 h2 h3

/-- Witness for C8: the current frame does not bind `x`, an outer frame does,
and looking `x` up still fails; and after calling the parameterless function
`f` (whose body binds `y`), the environment stack is exactly the caller's,
with `y` nowhere in it. -/
theorem variable_lookup_innermost_only_witness :
    exec1 1 ⟨[⟨[], false⟩, ⟨[(("x"), .num 1)], false⟩], [], [], [], [], []⟩ (.var ("x")) =
      (⟨[⟨[], false⟩, ⟨[(("x"), .num 1)], false⟩], [], [], [], [], []⟩,
       .error (.undefinedVariable ("x"))) ∧
    (exec1 5 ⟨[⟨[], false⟩], [(("f"), ⟨("f"), [], [.assignment ("y") (.number 1)]⟩)], [], [], [], []⟩
        (.functionCall ("f") [])).1.envStack = [⟨[], false⟩] :=
  ⟨variable_lookup_innermost_only.1 0 _ ("x") ⟨[], false⟩ [⟨[(("x"), .num 1)], false⟩] rfl rfl,
   variable_lookup_innermost_only.2 5 _ ("f") [] ⟨("f"), [], [.assignment ("y") (.number 1)]⟩
     rfl rfl rfl⟩

/-! ### C6 -/

/-- C6.  Calling a user-defined function with a wrong argument count fails
with the arity-mismatch error naming the expected and actual counts, and the
executor state — environment stack, registries, cache, pool and builtin-call
trace — is returned exactly as it was: no argument is evaluated and no body
statement runs. -/
theorem arity_mismatch_no_effects (fuel : Nat) (s : Executor1) (name : String)
    (args : List Node) (fd : FunctionDecl)
    (h1 : lookupA s.builtinCache name = none)
    (h2 : lookupA s.builtins name = none)
    (h3 : lookupA s.functions name = some fd)
    (hlen : args.length ≠ fd.parameters.length) :
    exec1 (fuel + 1) s (.functionCall name args) =
      (s, .error (.arityMismatch name fd.parameters.length args.length)) := by
  show callFnWith (exec1 fuel) s name args = _
  unfold callFnWith
  rw [h1, h2, h3]
  dsimp only
  rw [if_pos hlen]

/-- Witness for C6: a two-parameter function called with one argument fails
with "function add2 expects 2 arguments, but got 1", leaving the state
untouched. -/
theorem arity_mismatch_no_effects_witness :
    exec1 1 ⟨[⟨[], false⟩], [(("add2"), ⟨("add2"), [("a"), ("b")], []⟩)], [], [], [], []⟩
        (.functionCall ("add2") [.number 3]) =
      (⟨[⟨[], false⟩], [(("add2"), ⟨("add2"), [("a"), ("b")], []⟩)], [], [], [], []⟩,
       .error (.arityMismatch ("add2") 2 1)) :=
  arity_mismatch_no_effects 0 _ ("add2") [.number 3] ⟨("add2"), [("a"), ("b")], []⟩
    rfl rfl rfl (by decide)

/-! ### C9 -/

/-- C9.  When both operands of a `/` expression evaluate to numbers, the
evaluator checks the divisor against zero before dividing: a zero divisor
yields the dedicated division-by-zero error (no infinity value is ever
produced, since no division is performed), and a nonzero divisor yields the
exact quotient. -/
theorem division_by_zero_guard (fuel : Nat) (s s1 s2 : Executor1)
    (left right : Node) (a b : Rat)
    (hl : exec1 fuel s left = (s1, .ok (.num a)))
    (hr : exec1 fuel s1 right = (s2, .ok (.num b))) :
    exec1 (fuel + 1) s (.binaryExpression ("/") left right) =
      (s2, if b = 0 then .error .divisionByZero else .ok (.num (a / b))) := by
  show execStep (exec1 fuel) fuel s (.binaryExpression ("/") left right) = _
  simp [execStep, isValidOperator, handleBinaryOperation, hl, hr]

/-- Witness for C9: `1 / 0` fails with the division-by-zero error; `6 / 3`
yields `2`. -/
theorem division_by_zero_guard_witness :
    exec1 2 newExecutor1 (.binaryExpression ("/") (.number 1) (.number 0)) =
      (newExecutor1, .error .divisionByZero) ∧
    exec1 2 newExecutor1 (.binaryExpression ("/") (.number 6) (.number 3)) =
      (newExecutor1, .ok (.num 2)) := by
  constructor
  · have h := division_by_zero_guard 1 newExecutor1 newExecutor1 newExecutor1
      (.number 1) (.number 0) 1 0 rfl rfl
    simpa using h
  · have h := division_by_zero_guard 1 newExecutor1 newExecutor1 newExecutor1
      (.number 6) (.number 3) 6 3 rfl rfl
    rw [h]
    norm_num

/-! ### C4 -/

/-- Builtin returning the constant 1: the first registration of `f` in the
cache-staleness scenario. -/
def c4fOld : Builtin := fun _ => .ok (.num 1)

/-- Builtin returning the constant 2: the re-registration of `f`. -/
def c4fNew : Builtin := fun _ => .ok (.num 2)

/-- C4 counterexample.  Register builtin `f` (returning 1), call it once so
the lookup is cached, re-register `f` (returning 2), call again: the second
call still returns 1 — the stale cached callable, not the most recently
registered one — so the cache has diverged from the registry. -/
theorem builtin_cache_stale_cex :
    (exec1 3 (registerBuiltin1
        (exec1 3 (registerBuiltin1 newExecutor1 ("f") c4fOld) (.functionCall ("f") [])).1
        ("f") c4fNew)
      (.functionCall ("f") [])).2 = .ok (.num 1) ∧
    (exec1 3 (registerBuiltin1
        (exec1 3 (registerBuiltin1 newExecutor1 ("f") c4fOld) (.functionCall ("f") [])).1
        ("f") c4fNew)
      (.functionCall ("f") [])).2 ≠ .ok (.num 2) := by
  constructor
  · decide
  · decide

/-- C4 as amended.  A `FunctionCall` whose name is in the builtin cache
invokes the cached callable — whatever the `builtins` registry currently maps
the name to — and `RegisterBuiltin` writes only the registry, never the
cache; so after a re-registration, a previously cached name keeps resolving
to the older callable. -/
theorem builtin_cache_priority :
    (∀ (fuel : Nat) (s : Executor1) (name : String) (argNodes : List Node)
       (g : Builtin) (s' : Executor1) (vals : List Value),
       lookupA s.builtinCache name = some g →
       execArgsWith (exec1 fuel) s argNodes = (s', .ok vals) →
       exec1 (fuel + 1) s (.functionCall name argNodes) =
         ({ s' with trace := s'.trace ++ [(name, vals)] }, g vals)) ∧
    (∀ (s : Executor1) (name : String) (f : Builtin),
       (registerBuiltin1 s name f).builtinCache = s.builtinCache ∧
       lookupA (registerBuiltin1 s name f).builtins name = some f) := by
  constructor
  · intro fuel s name argNodes g s' vals hcache hargs
    show callFnWith (exec1 fuel) s name argNodes = _
    unfold callFnWith
    rw [hcache]
    dsimp only
    rw [hargs]
    rfl
  · intro s name f
    exact ⟨rfl, lookupA_insertA s.builtins name f⟩

/-- Witness for C4's amended statement: with `f` cached as the constant-1
callable while the registry holds the constant-2 callable, calling `f()`
returns 1, and re-registering leaves the cache unchanged. -/
theorem builtin_cache_priority_witness :
    exec1 1 ⟨[⟨[], false⟩], [], [(("f"), c4fNew)], [(("f"), c4fOld)], [], []⟩
        (.functionCall ("f") []) =
      (⟨[⟨[], false⟩], [], [(("f"), c4fNew)], [(("f"), c4fOld)], [], [(("f"), [])]⟩,
       .ok (.num 1)) ∧
    (registerBuiltin1 newExecutor1 ("f") c4fNew).builtinCache = newExecutor1.builtinCache :=
  ⟨builtin_cache_priority.1 0
      ⟨[⟨[], false⟩], [], [(("f"), c4fNew)], [(("f"), c4fOld)], [], []⟩ ("f") [] c4fOld
      ⟨[⟨[], false⟩], [], [(("f"), c4fNew)], [(("f"), c4fOld)], [], []⟩ [] rfl rfl,
   (builtin_cache_priority.2 newExecutor1 ("f") c4fNew).1⟩

/-! ### C1 -/

/-- Program `f(p) { p }; x := 5; f(x)`: a call whose argument reads a variable
bound in the caller's frame. -/
def argEvalProg : Node :=
  .program [
    .functionDeclaration ("f") [("p")] [.var ("p")],
    .assignment ("x") (.number 5),
    .functionCall ("f") [.var ("x")]]

/-- C1 evaluated at the failing input.  The stack executor pushes the new
(empty) call frame *before* evaluating the arguments, so the argument `x` is
looked up in the empty callee frame and the call fails with
"undefined variable: x" even though the caller binds `x = 5`.  The map
executor evaluates arguments in the caller's environment, as the claim
states, and the same program returns 5. -/
theorem arg_eval_after_push_bug :
    (exec1 20 newExecutor1 argEvalProg).2 = .error (.undefinedVariable ("x")) ∧
    (exec2 20 newExecutor2 argEvalProg).2 = .ok (.num 5) := by
  constructor
  · decide
  · decide

/-! ### C2 -/

/-- The repository's own functions test program:
`add(a, b) { return a + b }; add(3, 5)`. -/
def returnProg : Node :=
  .program [
    .functionDeclaration ("add") [("a"), ("b")]
      [.returnStatement (.binaryExpression ("+") (.var ("a")) (.var ("b")))],
    .functionCall ("add") [.number 3, .number 5]]

/-- C2 evaluated at the failing input.  Neither executor's `Execute` type
switch has a `*models.ReturnStatement` case, so executing the body statement
`return a + b` falls through to the default branch and the whole call fails
with "unknown node type: *models.ReturnStatement" instead of returning 8; the
return-recognition check in `handleFunctionCall` is dead code. -/
theorem return_statement_unknown_node_bug :
    (exec1 20 newExecutor1 returnProg).2 = .error (.unknownNodeType ("*models.ReturnStatement")) ∧
    (exec2 20 newExecutor2 returnProg).2 = .error (.unknownNodeType ("*models.ReturnStatement")) := by
  constructor
  · decide
  · decide

/-! ### C3 -/

/-- C3 counterexample.  In the stack executor, `"x" + "y"` does not
concatenate: the `BinaryExpression` case requires both operands to be numbers
before any operator dispatch, so the expression fails with "operands must be
numbers". -/
theorem string_concat_rejected_cex :
    (exec1 2 newExecutor1 (.binaryExpression ("+") (.string ("x")) (.string ("y")))).2 =
      .error .operandsMustBeNumbers ∧
    (exec1 2 newExecutor1 (.binaryExpression ("+") (.string ("x")) (.string ("y")))).2 ≠
      .ok (.str ("xy")) := by
  constructor
  · decide
  · decide

/-- C3 as amended.  In the stack executor every `+` requires numeric
operands: two strings, or a mixed string/number pair, both fail with the
type-mismatch error "operands must be numbers", and two numbers add.  The
executor's `add` helper would concatenate two strings, but it is unreachable
from `BinaryExpression` evaluation. -/
theorem plus_operand_typing :
    (∀ (fuel : Nat) (s s1 s2 : Executor1) (left right : Node) (a b : String),
       exec1 fuel s left = (s1, .ok (.str a)) →
       exec1 fuel s1 right = (s2, .ok (.str b)) →
       exec1 (fuel + 1) s (.binaryExpression ("+") left right) =
         (s2, .error .operandsMustBeNumbers)) ∧
    (∀ (fuel : Nat) (s s1 s2 : Executor1) (left right : Node) (a : String) (q : Rat),
       exec1 fuel s left = (s1, .ok (.str a)) →
       exec1 fuel s1 right = (s2, .ok (.num q)) →
       exec1 (fuel + 1) s (.binaryExpression ("+") left right) =
         (s2, .error .operandsMustBeNumbers)) ∧
    (∀ (fuel : Nat) (s s1 s2 : Executor1) (left right : Node) (p q : Rat),
       exec1 fuel s left = (s1, .ok (.num p)) →
       exec1 fuel s1 right = (s2, .ok (.num q)) →
       exec1 (fuel + 1) s (.binaryExpression ("+") left right) =
         (s2, .ok (.num (p + q)))) ∧
    (∀ a b : String, add (.str a) (.str b) = .ok (.str (a ++ b))) := by
  refine ⟨?_, ?_, ?_, ?_⟩
  · intro fuel s s1 s2 left right a b hl hr
    show execStep (exec1 fuel) fuel s (.binaryExpression ("+") left right) = _
    simp [execStep, isValidOperator, hl, hr]
  · intro fuel s s1 s2 left right a q hl hr
    show execStep (exec1 fuel) fuel s (.binaryExpression ("+") left right) = _
    simp [execStep, isValidOperator, hl, hr]
  · intro fuel s s1 s2 left right p q hl hr
    show execStep (exec1 fuel) fuel s (.binaryExpression ("+") left right) = _
    simp [execStep, isValidOperator, handleBinaryOperation, hl, hr]
  · intro a b
    rfl

/-- Witness for C3's amended statement at literal operands: `"x" + "y"` and
`"x" + 1` both fail with "operands must be numbers", `2 + 3` yields `5`, and
the unreachable `add` helper concatenates `"x"` and `"y"`. -/
theorem plus_operand_typing_witness :
    exec1 2 newExecutor1 (.binaryExpression ("+") (.string ("x")) (.string ("y"))) =
      (newExecutor1, .error .operandsMustBeNumbers) ∧
    exec1 2 newExecutor1 (.binaryExpression ("+") (.string ("x")) (.number 1)) =
      (newExecutor1, .error .operandsMustBeNumbers) ∧
    exec1 2 newExecutor1 (.binaryExpression ("+") (.number 2) (.number 3)) =
      (newExecutor1, .ok (.num 5)) ∧
    add (.str ("x")) (.str ("y")) = .ok (.str ("xy")) := by
  refine ⟨?_, ?_, ?_, ?_⟩
  · exact plus_operand_typing.1 1 newExecutor1 newExecutor1 newExecutor1
      (.string ("x")) (.string ("y")) ("x") ("y") rfl rfl
  · exact plus_operand_typing.2.1 1 newExecutor1 newExecutor1 newExecutor1
      (.string ("x")) (.number 1) ("x") 1 rfl rfl
  · have h := plus_operand_typing.2.2.1 1 newExecutor1 newExecutor1 newExecutor1
      (.number 2) (.number 3) 2 3 rfl rfl
    rw [h]
    norm_num
  · exact plus_operand_typing.2.2.2 ("x") ("y")

/-! ### C5 -/

/-- The per-child outcomes of a parallel block under the sequential
(source-order) schedule: each child is evaluated in turn and its full result
is recorded. -/
def childRunsWith (eval : Eval1) : Executor1 → List Node → Executor1 × List (Except Err Value)
  | s, [] => (s, [])
  | s, n :: rest =>
      let (s', r) := eval s n
      let (s'', rs) := childRunsWith eval s' rest
      (s'', r :: rs)

/-- Extracts the rendered message of a failed child outcome. -/
def errMsg : Except Err Value → Option String
  | .error e => some e.render
  | .ok _ => none

/-- The error list collected by the fan-out is exactly the rendered errors of
the failing children, in order. -/
theorem runParallelWith_eq_childRuns (eval : Eval1) : ∀ (body : List Node) (s : Executor1),
    runParallelWith eval s body =
      ((childRunsWith eval s body).1, (childRunsWith eval s body).2.filterMap errMsg) := by
  intro body
  induction body with
  | nil => intro s; rfl
  | cons n ns ih =>
      intro s
      rcases hev : eval s n with ⟨s', r⟩
      simp only [runParallelWith, childRunsWith, hev, ih s']
      cases r with
      | error e => simp [errMsg]
      | ok v => simp [errMsg]

/-- Parallel block whose three children fail with three distinct errors. -/
def threeFailBlock : Node := .parallelBlock [.var ("a"), .var ("b"), .var ("c")]

/-- C5 as amended.  In the stack executor a `ParallelBlock` aggregates: its
result carries the rendered error of every failing child (in completion
order), and it succeeds with no value exactly when no child failed; the
three-distinct-failures block yields an aggregate with exactly those three
messages, and an all-success block yields no error.  In the map executor the
same three-failure block returns only the first collected error, not an
aggregate. -/
theorem parallel_error_aggregation :
    (∀ (fuel : Nat) (s : Executor1) (body : List Node),
       exec1 (fuel + 1) s (.parallelBlock body) =
         ((childRunsWith (exec1 fuel) s body).1,
          if ((childRunsWith (exec1 fuel) s body).2.filterMap errMsg).isEmpty
          then .ok .null
          else .error (.multipleErrors
            ((childRunsWith (exec1 fuel) s body).2.filterMap errMsg)))) ∧
    (exec1 3 newExecutor1 threeFailBlock).2 =
      .error (.multipleErrors
        [("undefined variable: a"), ("undefined variable: b"), ("undefined variable: c")]) ∧
    (exec2 3 newExecutor2 threeFailBlock).2 = .error (.undefinedVariable ("a")) ∧
    (exec1 3 newExecutor1 (.parallelBlock [.number 1, .number 2])).2 = .ok .null := by
  refine ⟨?_, by decide, by decide, by decide⟩
  intro fuel s body
  show execStep (exec1 fuel) fuel s (.parallelBlock body) = _
  simp only [execStep, runParallelWith_eq_childRuns]
  split <;> rfl

/-- C5 counterexample.  The map executor's `ParallelBlock` case returns only
the first collected error: the three-failure block yields the single error
"undefined variable: a" rather than an aggregate enumerating all three. -/
theorem parallel_first_error_cex :
    (exec2 3 newExecutor2 threeFailBlock).2 = .error (.undefinedVariable ("a")) ∧
    (exec2 3 newExecutor2 threeFailBlock).2 ≠
      .error (.multipleErrors
        [("undefined variable: a"), ("undefined variable: b"), ("undefined variable: c")]) := by
  constructor
  · decide
  · decide

/-! ### C7 -/

/-- One `ForLoop` round: a true boolean condition runs the body, then the
post expression, and continues at one unit less loop fuel. -/
theorem forIter_step {eval : Eval1} (k : Nat) {s s1 s2 s3 : Executor1}
    {cond post : Node} {body : List Node} {v : Value}
    (hc : eval s cond = (s1, .ok (.bool true)))
    (hb : runStmtsWith eval s1 body = (s2, .ok ()))
    (hp : eval s2 post = (s3, .ok v)) :
    forIterWith eval (k + 1) s cond post body = forIterWith eval k s3 cond post body := by
  simp only [forIterWith, hc, hb, hp]

/-- A false boolean condition stops the loop with no value. -/
theorem forIter_stop {eval : Eval1} (k : Nat) {s s1 : Executor1}
    {cond post : Node} {body : List Node}
    (hc : eval s cond = (s1, .ok (.bool false))) :
    forIterWith eval (k + 1) s cond post body = (s1, .ok .null) := by
  simp only [forIterWith, hc]

/-- The `collect`-style builtin of the loop test: accepts anything, returns
`nil`.  Its invocations are recorded in the trace. -/
def collectBuiltin : Builtin := fun _ => .ok .null

/-- Fresh stack executor with `collect` registered. -/
def c7start : Executor1 := registerBuiltin1 newExecutor1 ("collect") collectBuiltin

/-- Loop pieces of `for (i = 0; i < 5; i = i + 1) { collect(i) }`. -/
def c7init : Node := .assignment ("i") (.number 0)

def c7cond : Node := .comparisonExpression ("<") (.var ("i")) (.number 5)

def c7post : Node := .assignment ("i") (.binaryExpression ("+") (.var ("i")) (.number 1))

def c7body : List Node := [.functionCall ("collect") [.var ("i")]]

def c7loop : Node := .forLoop c7init c7cond c7post c7body

/-- The builtin cache after the first `collect` call. -/
def c7cache : List (String × Builtin) := [(("collect"), collectBuiltin)]

/-- One recorded `collect(i)` invocation. -/
def c7call (i : Rat) : String × List Value := (("collect"), [.num i])

/-- Executor state between loop rounds: `i` bound in the base frame, the
given cache and trace, everything else as at start. -/
def c7st (i : Rat) (cache : List (String × Builtin)) (tr : List (String × List Value)) :
    Executor1 :=
  { envStack := [⟨[(("i"), .num i)], false⟩], functions := [],
    builtins := c7cache, builtinCache := cache, envPool := [], trace := tr }

theorem c7c0 : exec1 11 (c7st 0 [] []) c7cond = (c7st 0 [] [], .ok (.bool true)) := rfl

theorem c7b0 : runStmtsWith (exec1 11) (c7st 0 [] []) c7body =
    (c7st 0 c7cache [c7call 0], .ok ()) := rfl

theorem c7p0 : exec1 11 (c7st 0 c7cache [c7call 0]) c7post =
    (c7st 1 c7cache [c7call 0], .ok (.num 1)) := rfl

theorem c7c1 : exec1 11 (c7st 1 c7cache [c7call 0]) c7cond =
    (c7st 1 c7cache [c7call 0], .ok (.bool true)) := rfl

theorem c7b1 : runStmtsWith (exec1 11) (c7st 1 c7cache [c7call 0]) c7body =
    (c7st 1 c7cache [c7call 0, c7call 1], .ok ()) := rfl

theorem c7p1 : exec1 11 (c7st 1 c7cache [c7call 0, c7call 1]) c7post =
    (c7st 2 c7cache [c7call 0, c7call 1], .ok (.num 2)) := rfl

theorem c7c2 : exec1 11 (c7st 2 c7cache [c7call 0, c7call 1]) c7cond =
    (c7st 2 c7cache [c7call 0, c7call 1], .ok (.bool true)) := rfl

theorem c7b2 : runStmtsWith (exec1 11) (c7st 2 c7cache [c7call 0, c7call 1]) c7body =
    (c7st 2 c7cache [c7call 0, c7call 1, c7call 2], .ok ()) := rfl

theorem c7p2 : exec1 11 (c7st 2 c7cache [c7call 0, c7call 1, c7call 2]) c7post =
    (c7st 3 c7cache [c7call 0, c7call 1, c7call 2], .ok (.num 3)) := rfl

theorem c7c3 : exec1 11 (c7st 3 c7cache [c7call 0, c7call 1, c7call 2]) c7cond =
    (c7st 3 c7cache [c7call 0, c7call 1, c7call 2], .ok (.bool true)) := rfl

theorem c7b3 : runStmtsWith (exec1 11) (c7st 3 c7cache [c7call 0, c7call 1, c7call 2]) c7body =
    (c7st 3 c7cache [c7call 0, c7call 1, c7call 2, c7call 3], .ok ()) := rfl

theorem c7p3 : exec1 11 (c7st 3 c7cache [c7call 0, c7call 1, c7call 2, c7call 3]) c7post =
    (c7st 4 c7cache [c7call 0, c7call 1, c7call 2, c7call 3], .ok (.num 4)) := rfl

theorem c7c4 : exec1 11 (c7st 4 c7cache [c7call 0, c7call 1, c7call 2, c7call 3]) c7cond =
    (c7st 4 c7cache [c7call 0, c7call 1, c7call 2, c7call 3], .ok (.bool true)) := rfl

theorem c7b4 : runStmtsWith (exec1 11)
    (c7st 4 c7cache [c7call 0, c7call 1, c7call 2, c7call 3]) c7body =
    (c7st 4 c7cache [c7call 0, c7call 1, c7call 2, c7call 3, c7call 4], .ok ()) := rfl

theorem c7p4 : exec1 11
    (c7st 4 c7cache [c7call 0, c7call 1, c7call 2, c7call 3, c7call 4]) c7post =
    (c7st 5 c7cache [c7call 0, c7call 1, c7call 2, c7call 3, c7call 4], .ok (.num 5)) := rfl

theorem c7c5 : exec1 11
    (c7st 5 c7cache [c7call 0, c7call 1, c7call 2, c7call 3, c7call 4]) c7cond =
    (c7st 5 c7cache [c7call 0, c7call 1, c7call 2, c7call 3, c7call 4],
     .ok (.bool false)) := rfl

/-- The five loop rounds, chained. -/
theorem c7chain : forIterWith (exec1 11) 11 (c7st 0 [] []) c7cond c7post c7body =
    (c7st 5 c7cache [c7call 0, c7call 1, c7call 2, c7call 3, c7call 4], .ok .null) := by
  rw [forIter_step 10 c7c0 c7b0 c7p0, forIter_step 9 c7c1 c7b1 c7p1,
      forIter_step 8 c7c2 c7b2 c7p2, forIter_step 7 c7c3 c7b3 c7p3,
      forIter_step 6 c7c4 c7b4 c7p4, forIter_stop 5 c7c5]

/-- Full run of the counting loop: terminates successfully with no value,
leaving `i = 5` and exactly the five recorded `collect` calls. -/
theorem c7run : exec1 12 c7start c7loop =
    (c7st 5 c7cache [c7call 0, c7call 1, c7call 2, c7call 3, c7call 4], .ok .null) := by
  have h0 : exec1 11 c7start c7init = (c7st 0 [] [], .ok (.num 0)) := rfl
  show execStep (exec1 11) 11 c7start c7loop = _
  simp only [c7loop, execStep, h0]
  exact c7chain

/-- C7.  `for (i = 0; i < 5; i = i + 1) { collect(i) }` invokes `collect`
with exactly 0, 1, 2, 3, 4 in that order and ends with no value; a loop whose
condition is the number 1 fails with the condition-type error; the
initialization runs exactly once even when the loop body never runs; and the
first error in the body aborts the loop, with no later body statement
executed. -/
theorem for_loop_iteration_order :
    exec1 12 c7start c7loop =
      (c7st 5 c7cache [c7call 0, c7call 1, c7call 2, c7call 3, c7call 4], .ok .null) ∧
    (c7st 5 c7cache [c7call 0, c7call 1, c7call 2, c7call 3, c7call 4]).trace =
      [(("collect"), [.num 0]), (("collect"), [.num 1]), (("collect"), [.num 2]),
       (("collect"), [.num 3]), (("collect"), [.num 4])] ∧
    (exec1 5 c7start (.forLoop c7init (.number 1) c7post c7body)).2 =
      .error .conditionMustBeBoolean ∧
    (exec1 5 c7start
        (.forLoop (.functionCall ("collect") [])
          (.comparisonExpression ("<") (.number 1) (.number 0)) (.number 0)
          [.functionCall ("collect") [.number 9]])).1.trace = [(("collect"), [])] ∧
    (exec1 8 c7start
        (.forLoop c7init c7cond c7post [.var ("zzz"), .functionCall ("collect") [.var ("i")]])).2 =
      .error (.undefinedVariable ("zzz")) ∧
    (exec1 8 c7start
        (.forLoop c7init c7cond c7post [.var ("zzz"), .functionCall ("collect") [.var ("i")]])).1.trace =
      [] := by
  refine ⟨c7run, rfl, by decide, by decide, by decide, by decide⟩

/-! ### C10 -/

/-- A `ForLoop` iteration that terminates successfully always yields `nil`. -/
theorem forIterWith_ok_null {eval : Eval1} : ∀ (k : Nat) (s : Executor1)
    (cond post : Node) (body : List Node) (s' : Executor1) (v : Value),
    forIterWith eval k s cond post body = (s', .ok v) → v = .null := by
  intro k
  induction k with
  | zero =>
      intro s cond post body s' v h
      simp [forIterWith] at h
  | succ k ih =>
      intro s cond post body s' v h
      simp only [forIterWith] at h
      split at h
      · simp at h
      · split at h
        · split at h
          · simp at h
          · split at h
            · simp at h
            · exact ih _ _ _ _ _ _ h
        · simp only [Prod.mk.injEq, Except.ok.injEq] at h
          exact h.2.symm
        · simp at h

/-- A `WhileLoop` iteration that terminates successfully always yields
`nil`. -/
theorem whileIterWith_ok_null {eval : Eval1} : ∀ (k : Nat) (s : Executor1)
    (cond : Node) (body : List Node) (s' : Executor1) (v : Value),
    whileIterWith eval k s cond body = (s', .ok v) → v = .null := by
  intro k
  induction k with
  | zero =>
      intro s cond body s' v h
      simp [whileIterWith] at h
  | succ k ih =>
      intro s cond body s' v h
      simp only [whileIterWith] at h
      split at h
      · simp at h
      · split at h
        · split at h
          · simp at h
          · exact ih _ _ _ _ _ h
        · simp only [Prod.mk.injEq, Except.ok.injEq] at h
          exact h.2.symm
        · simp at h

/-- The value of a successful statement sequence is the value of its last
statement. -/
theorem execSeqWith_last {eval : Eval1} : ∀ (pre : List Node) (n : Node) (s : Executor1)
    (r : Value) (s' : Executor1) (v : Value),
    execSeqWith eval s r (pre ++ [n]) = (s', .ok v) →
    ∃ s0, eval s0 n = (s', .ok v) := by
  intro pre
  induction pre with
  | nil =>
      intro n s r s' v h
      simp only [List.nil_append, execSeqWith] at h
      split at h
      · simp at h
      · rename_i s1 res hev
        simp only [execSeqWith, Prod.mk.injEq, Except.ok.injEq] at h
        obtain ⟨h1, h2⟩ := h
        subst h1
        subst h2
        exact ⟨s, hev⟩
  | cons m pre ih =>
      intro n s r s' v h
      simp only [List.cons_append, execSeqWith] at h
      split at h
      · simp at h
      · rename_i s1 res hev
        exact ih n s1 res s' v h

/-- A successful `ForLoop` evaluation yields `nil`. -/
theorem exec1_forLoop_ok_null (fuel : Nat) (s : Executor1) (i c p : Node)
    (b : List Node) (s' : Executor1) (v : Value)
    (h : exec1 fuel s (.forLoop i c p b) = (s', .ok v)) : v = .null := by
  cases fuel with
  | zero => simp [exec1] at h
  | succ fuel =>
      rw [exec1_succ] at h
      simp only [execStep] at h
      split at h
      · simp at h
      · exact forIterWith_ok_null fuel _ c p b s' v h

/-- A successful `WhileLoop` evaluation yields `nil`. -/
theorem exec1_whileLoop_ok_null (fuel : Nat) (s : Executor1) (c : Node)
    (b : List Node) (s' : Executor1) (v : Value)
    (h : exec1 fuel s (.whileLoop c b) = (s', .ok v)) : v = .null := by
  cases fuel with
  | zero => simp [exec1] at h
  | succ fuel =>
      rw [exec1_succ] at h
      simp only [execStep] at h
      exact whileIterWith_ok_null fuel _ c b s' v h

/-- C10.  Every `ForLoop` or `WhileLoop` that completes without error yields
`nil`, whatever its body statements produce; consequently a `Program` whose
last statement is a loop returns `nil` as its final value. -/
theorem loops_yield_nil :
    (∀ (fuel : Nat) (s : Executor1) (i c p : Node) (b : List Node)
       (s' : Executor1) (v : Value),
       exec1 fuel s (.forLoop i c p b) = (s', .ok v) → v = .null) ∧
    (∀ (fuel : Nat) (s : Executor1) (c : Node) (b : List Node)
       (s' : Executor1) (v : Value),
       exec1 fuel s (.whileLoop c b) = (s', .ok v) → v = .null) ∧
    (∀ (fuel : Nat) (s : Executor1) (pre : List Node) (i c p : Node) (b : List Node)
       (s' : Executor1) (v : Value),
       exec1 (fuel + 1) s (.program (pre ++ [.forLoop i c p b])) = (s', .ok v) →
       v = .null) ∧
    (∀ (fuel : Nat) (s : Executor1) (pre : List Node) (c : Node) (b : List Node)
       (s' : Executor1) (v : Value),
       exec1 (fuel + 1) s (.program (pre ++ [.whileLoop c b])) = (s', .ok v) →
       v = .null) := by
  refine ⟨exec1_forLoop_ok_null, exec1_whileLoop_ok_null, ?_, ?_⟩
  · intro fuel s pre i c p b s' v h
    rw [exec1_succ] at h
    have hlast := execSeqWith_last pre (.forLoop i c p b) s .null s' v h
    obtain ⟨s0, h0⟩ := hlast
    exact exec1_forLoop_ok_null fuel s0 i c p b s' v h0
  · intro fuel s pre c b s' v h
    rw [exec1_succ] at h
    have hlast := execSeqWith_last pre (.whileLoop c b) s .null s' v h
    obtain ⟨s0, h0⟩ := hlast
    exact exec1_whileLoop_ok_null fuel s0 c b s' v h0

/-- State after `for (i = 0; i < 1; i = i + 1) { j := 7 }`. -/
def c10st : Executor1 :=
  { envStack := [⟨[(("i"), .num 1), (("j"), .num 7)], false⟩], functions := [],
    builtins := [], builtinCache := [], envPool := [], trace := [] }

/-- Witness for C10: the one-round loop whose body's last statement produced
the value 7 still finishes with `nil`, also as the last statement of a
program. -/
theorem loops_yield_nil_witness :
    exec1 6 newExecutor1
      (.forLoop (.assignment ("i") (.number 0))
        (.comparisonExpression ("<") (.var ("i")) (.number 1))
        (.assignment ("i") (.binaryExpression ("+") (.var ("i")) (.number 1)))
        [.assignment ("j") (.number 7)]) = (c10st, .ok .null) ∧
    Value.null = Value.null ∧
    exec1 7 newExecutor1
      (.program ([] ++ [.whileLoop (.comparisonExpression ("<") (.number 1) (.number 0))
        [.assignment ("j") (.number 7)]])) = (newExecutor1, .ok .null) ∧
    Value.null = Value.null :=
  ⟨rfl,
   loops_yield_nil.1 6 newExecutor1 (.assignment ("i") (.number 0))
     (.comparisonExpression ("<") (.var ("i")) (.number 1))
     (.assignment ("i") (.binaryExpression ("+") (.var ("i")) (.number 1)))
     [.assignment ("j") (.number 7)] c10st .null rfl,
   rfl,
   loops_yield_nil.2.2.2 6 newExecutor1 []
     (.comparisonExpression ("<") (.number 1) (.number 0))
     [.assignment ("j") (.number 7)] newExecutor1 .null rfl⟩

end Silk
